import Mathlib

/-!
Verification of the FreeSEOToolkit heuristic text-scoring core: the keyword
density engine (`api/keyword-density.ts`, `server/routes.ts`) and the
AI-content detector pipeline (`api/ai-detection` handler).

JavaScript numbers are modelled as exact rationals (`ℚ`); a division whose
JavaScript result is non-finite (NaN or Infinity, from a zero denominator)
is modelled as `none` in an `Option` result.  JavaScript strings are lists
of characters; inputs are ASCII so `Char.toLower` matches `toLowerCase`.
-/

set_option maxRecDepth 100000
set_option maxHeartbeats 2000000

namespace SEO

/-- JS `\w` character class: alphanumerics and underscore. -/
def isWordChar (c : Char) : Bool := c.isAlphanum || c = '_'

/-- JS `\s` character class (the ASCII part): space, tab, LF, VT, FF, CR. -/
def isWsChar (c : Char) : Bool :=
  c = ' ' || c = '\t' || c = '\n' || c = '\x0b' || c = '\x0c' || c = '\r'

/-- The sentence-terminator class `[.!?]` used by the detector. -/
def isSentencePunct (c : Char) : Bool := c = '.' || c = '!' || c = '?'

/-- `toLowerCase` on the character list of an (ASCII) string. -/
def lowerStr (s : List Char) : List Char := s.map Char.toLower

mutual

/-- Accumulating worker for `splitRuns`: `cur` is the reversed current piece. -/
def splitRunsGo (f : Char → Bool) (cur : List Char) : List Char → List (List Char)
  | [] => [cur.reverse]
  | c :: rest =>
      if f c then cur.reverse :: splitRunsSkip f rest else splitRunsGo f (c :: cur) rest

/-- Worker that is inside a separator run; emits a final empty piece at the
end of input, matching JS `"a ".split(/\s+/) = ["a", ""]`. -/
def splitRunsSkip (f : Char → Bool) : List Char → List (List Char)
  | [] => [[]]
  | c :: rest => if f c then splitRunsSkip f rest else splitRunsGo f [c] rest

end

/-- JS `String.prototype.split` against a one-class-plus regex such as
`/\s+/` or `/[.!?]+/`: pieces between maximal runs of `f`-characters,
with empty pieces at the edges when a run touches an edge. -/
def splitRuns (f : Char → Bool) (s : List Char) : List (List Char) :=
  splitRunsGo f [] s

/-- JS `String.prototype.trim`. -/
def trimChars (s : List Char) : List Char :=
  ((s.dropWhile isWsChar).reverse.dropWhile isWsChar).reverse

/-- Density-engine tokenizer (`api/keyword-density.ts` lines 29-33):
lower-case, replace `[^\w\s]` by a space, split on `\s+`, keep tokens of
length greater than 2. -/
def tokenize (content : String) : List (List Char) :=
  let cleaned := (lowerStr content.data).map fun c =>
    if isWordChar c || isWsChar c then c else ' '
  (splitRuns isWsChar cleaned).filter fun w => 2 < w.length

/-- One `wordCount.set(word, (wordCount.get(word) || 0) + 1)` step on the
insertion-ordered entry list of a JS `Map`. -/
def bumpWord (w : List Char) : List (List Char × Nat) → List (List Char × Nat)
  | [] => [(w, 1)]
  | (k, n) :: rest => if k = w then (k, n + 1) :: rest else (k, n) :: bumpWord w rest

/-- The frequency `Map` as its insertion-ordered entry list: first-seen
token order, one entry per distinct token. -/
def buildFreq (ws : List (List Char)) : List (List Char × Nat) :=
  ws.foldl (fun acc w => bumpWord w acc) []

/-- `Number(x.toFixed(2))` on a non-negative value: round to the nearest
hundredth, ties away from zero. -/
def round2 (q : ℚ) : ℚ := (⌊q * 100 + 1 / 2⌋ : ℚ) / 100

/-- The `status` union type of a keyword record. -/
inductive DensityStatus
  | low
  | good
  | optimal
  | high
deriving DecidableEq

/-- Density tier classification (`api/keyword-density.ts` lines 49-52),
applied to the unrounded density value. -/
def statusOf (density : ℚ) : DensityStatus :=
  if density < 1 then .low
  else if density < 2 then .good
  else if density < 4 then .optimal
  else .high

/-- Tier order used to state monotonicity: low, good, optimal, high. -/
def DensityStatus.rank : DensityStatus → Nat
  | .low => 0
  | .good => 1
  | .optimal => 2
  | .high => 3

structure KeywordRecord where
  word : List Char
  frequency : Nat
  density : ℚ
  status : DensityStatus
deriving DecidableEq

/-- The record built from one frequency-map entry
(`api/keyword-density.ts` lines 45-54): `density = (frequency / totalWords)
* 100`, tier from the unrounded density, stored density rounded to two
decimals by `Number(density.toFixed(2))`. -/
def mkRecord (totalWords : Nat) (e : List Char × Nat) : KeywordRecord :=
  let density : ℚ := ((e.2 : ℚ) / (totalWords : ℚ)) * 100
  ⟨e.1, e.2, round2 density, statusOf density⟩

/-- Stable insertion step for the descending-frequency sort: the new
element goes in front of the first element whose frequency is not larger,
so earlier (first-seen) entries stay in front of equal-frequency ones. -/
def insertByFreq (x : KeywordRecord) : List KeywordRecord → List KeywordRecord
  | [] => [x]
  | y :: ys => if y.frequency ≤ x.frequency then x :: y :: ys else y :: insertByFreq x ys

/-- `sort((a, b) => b.frequency - a.frequency)`: ECMAScript `Array.sort` is
stable, so it is modelled by stable insertion sort on descending frequency. -/
def sortByFreqDesc : List KeywordRecord → List KeywordRecord
  | [] => []
  | x :: xs => insertByFreq x (sortByFreqDesc xs)

/-- JS division where a zero denominator yields a non-finite number
(`0/0 = NaN`, `x/0 = ±Infinity`), modelled as `none`. -/
def jsDiv (a b : ℚ) : Option ℚ := if b = 0 then none else some (a / b)

/-- `Math.max` on finite numbers (kernel-reducible, unlike Mathlib `max`). -/
def jsMax (a b : ℚ) : ℚ := if a ≤ b then b else a

/-- `Math.min` on finite numbers. -/
def jsMin (a b : ℚ) : ℚ := if a ≤ b then a else b

structure DensityReport where
  totalWords : Nat
  uniqueKeywords : Nat
  keywords : List KeywordRecord
  avgDensity : Option ℚ
  topKeywordDensity : ℚ
deriving DecidableEq

/-- The keyword-density handler core (`api/keyword-density.ts` lines 29-68,
identically `server/routes.ts` lines 181-221): tokenize, count, build
records, sort by frequency descending, keep the first 20, then
`avgDensity = Number((keywords.reduce((s, k) => s + k.density, 0) /
keywords.length).toFixed(2))` — with no guard for an empty keyword list —
and `topKeywordDensity = keywords[0]?.density || 0`. -/
def keywordReport (content : String) : DensityReport :=
  let words := tokenize content
  let totalWords := words.length
  let wordCount := buildFreq words
  let keywords := (sortByFreqDesc (wordCount.map (mkRecord totalWords))).take 20
  let avgDensity :=
    (jsDiv (keywords.foldl (fun sum k => sum + k.density) 0) (keywords.length : ℚ)).map round2
  let top := ((keywords.head?).map KeywordRecord.density).getD 0
  ⟨totalWords, wordCount.length, keywords, avgDensity, top⟩

/-!
### A small matching engine for the detector's regular expressions

Every regex in the detector is a sequence of: literal text, a single
character class, a greedy `*`, `+` or `{2,}` over a class, a word boundary
`\b`, or an alternation of literal words.  In each pattern the character
class under a greedy quantifier is disjoint from the character that must
follow it, so greedy matching without backtracking inside the quantifier is
exact; alternatives are tried left to right with the rest of the pattern,
as the JS engine does.  Case-insensitive (`i`) patterns are matched against
the lower-cased text, which is equivalent for ASCII input; the case-less
patterns are unaffected by lower-casing.
-/

inductive Atom where
  | lit : List Char → Atom
  | cls : (Char → Bool) → Atom
  | star : (Char → Bool) → Atom
  | plus : (Char → Bool) → Atom
  | rep2 : (Char → Bool) → Atom
  | wordB : Atom
  | altLit : List (List Char) → Atom

abbrev Pat := List Atom

/-- Consume an exact literal prefix, returning the remaining characters. -/
def consumeLit : List Char → List Char → Option (List Char)
  | [], s => some s
  | _ :: _, [] => none
  | c :: w, d :: s => if c = d then consumeLit w s else none

/-- The character preceding the current position after consuming `w`
(used by `\b`); falls back to the previous `prev` when `w` is empty. -/
def newPrev (w : List Char) (prev : Option Char) : Option Char :=
  match w.getLast? with
  | some c => some c
  | none => prev

/-- Match a pattern at the current position.  `prev` is the character just
before the position (`none` at the start of the text).  On success returns
the remaining characters and the new preceding character.  The `fuel`
argument (always instantiated with the pattern length, which each step
decreases by one) keeps the recursion structural so that the kernel can
evaluate the definition. -/
def matchSeq : Nat → Pat → Option Char → List Char → Option (List Char × Option Char)
  | 0, _, _, _ => none
  | _ + 1, [], prev, s => some (s, prev)
  | fuel + 1, .wordB :: as, prev, s =>
      let left := match prev with | some c => isWordChar c | none => false
      let right := match s with | c :: _ => isWordChar c | [] => false
      if left ≠ right then matchSeq fuel as prev s else none
  | fuel + 1, .lit w :: as, prev, s =>
      match consumeLit w s with
      | some s' => matchSeq fuel as (newPrev w prev) s'
      | none => none
  | fuel + 1, .cls f :: as, prev, s =>
      match s with
      | [] => none
      | c :: s' => if f c then matchSeq fuel as (some c) s' else none
  | fuel + 1, .star f :: as, prev, s =>
      matchSeq fuel as (newPrev (s.takeWhile f) prev) (s.dropWhile f)
  | fuel + 1, .plus f :: as, prev, s =>
      match s with
      | [] => none
      | c :: s' =>
          if f c then
            matchSeq fuel as (some ((c :: s'.takeWhile f).getLastD c)) (s'.dropWhile f)
          else none
  | fuel + 1, .rep2 f :: as, prev, s =>
      match s with
      | c1 :: c2 :: s' =>
          if f c1 && f c2 then
            matchSeq fuel as (some ((c2 :: s'.takeWhile f).getLastD c2)) (s'.dropWhile f)
          else none
      | _ => none
  | fuel + 1, .altLit alts :: as, prev, s =>
      alts.foldl
        (fun acc w =>
          match acc with
          | some r => some r
          | none =>
              match consumeLit w s with
              | some s' => matchSeq fuel as (newPrev w prev) s'
              | none => none)
        none

/-- Scan for matches left to right, restarting after each match, exactly as
a global-flag `content.match(re)` does; `matches.length` is this count.
All the detector's patterns match at least one character, so the scan
advances at every step; the fuel is the text length plus one. -/
def countFrom (p : Pat) : Nat → Option Char → List Char → Nat
  | 0, _, _ => 0
  | _ + 1, _, [] => 0
  | fuel + 1, prev, c :: rest =>
      match matchSeq (p.length + 1) p prev (c :: rest) with
      | some (remaining, rPrev) =>
          if remaining.length < rest.length + 1 then 1 + countFrom p fuel rPrev remaining
          else countFrom p fuel (some c) rest
      | none => countFrom p fuel (some c) rest

/-- `(content.match(re) || []).length` for a global regex `re`. -/
def countMatches (p : Pat) (s : List Char) : Nat :=
  countFrom p (s.length + 1) none s

/-- A literal atom from a string. -/
def litW (s : String) : Atom := .lit s.data

/-- An alternation-of-literal-words atom. -/
def altW (ws : List String) : Atom := .altLit (ws.map String.data)

/-- Sum of global match counts of several patterns over the lower-cased
content, the shape of every `patterns.reduce((count, p) => count +
(content.match(p) || []).length, 0)` in the detector. -/
def sumCounts (ps : List Pat) (content : String) : Nat :=
  (ps.map fun p => countMatches p (lowerStr content.data)).sum

/-!
### The eight signal extractors (`analyzeContentForAI` helpers)
-/

/-- The sentence list of `analyzeContentForAI` line 29:
`content.split(/[.!?]+/).filter(s => s.trim().length > 0)`. -/
def contentSentences (content : String) : List (List Char) :=
  (splitRuns isSentencePunct content.data).filter fun s =>
    decide (0 < (trimChars s).length)

/-- Fingerprints of `detectRepetitivePatterns` (lines 109-119): for each
sentence of `content.split(/[.!?]+/)`, trim and split on `\s+`; only when
the sentence has more than 3 words, push its first 3 words joined by a
space and lower-cased. -/
def repetitionFingerprints (content : String) : List (List Char) :=
  (splitRuns isSentencePunct content.data).filterMap fun sentence =>
    let ws := splitRuns isWsChar (trimChars sentence)
    if 3 < ws.length then some (lowerStr (List.intercalate ([' ']) (ws.take 3))) else none

/-- `detectRepetitivePatterns` (lines 109-128): the number of distinct
fingerprints that occur more than once. -/
def detectRepetitivePatterns (content : String) : Nat :=
  ((buildFreq (repetitionFingerprints content)).filter fun e => decide (1 < e.2)).length

def formalWords : List (List Char) :=
  [("furthermore"), ("moreover"), ("consequently"), ("subsequently"), ("therefore"),
   ("however"), ("nevertheless"), ("nonetheless"), ("additionally"), ("specifically"),
   ("particularly"), ("essentially"), ("ultimately"), ("fundamentally"), ("accordingly")
  ].map String.data

/-- `detectFormalLanguage` (lines 130-140): the fraction of
whitespace-delimited lower-cased tokens that are in `formalWords`.
`words.length ≥ 1` always, so the division is finite. -/
def detectFormalLanguage (content : String) : ℚ :=
  let ws := splitRuns isWsChar (lowerStr content.data)
  let formalCount := (ws.filter fun w => formalWords.contains w).length
  (formalCount : ℚ) / (ws.length : ℚ)

/-- The ten `personalMarkers` regexes (lines 143-154). -/
def personalPatterns : List Pat :=
  [[.wordB, litW ("i"), .plus isWsChar,
    altW [("think"), ("believe"), ("feel"), ("remember"), ("learned"), ("experienced"),
          ("noticed"), ("realized")]],
   [.wordB, litW ("my"), .plus isWsChar,
    altW [("experience"), ("opinion"), ("perspective"), ("approach"), ("journey"), ("story")]],
   [.wordB, litW ("when"), .plus isWsChar, litW ("i"), .plus isWsChar,
    altW [("first"), ("started"), ("began"), ("was"), ("tried")]],
   [.wordB, litW ("you know"), .wordB],
   [.wordB, litW ("honestly"), .wordB],
   [.wordB, litW ("frankly"), .wordB],
   [.wordB, litW ("between you and me"), .wordB],
   [.wordB, litW ("in my opinion"), .wordB],
   [.wordB, litW ("let me tell you"), .wordB],
   [.wordB, litW ("here\x27s the thing"), .wordB]]

/-- `detectPersonalTouches` (lines 142-160). -/
def detectPersonalTouches (content : String) : Nat :=
  sumCounts personalPatterns content

/-- The five `imperfections` regexes (lines 164-170): `/\band\s+and\b/`,
`/\bthat\s+that\b/`, `/\.\s*\w/`, `/\s+,/`, `/\s{2,}/`. -/
def grammarPatterns : List Pat :=
  [[.wordB, litW ("and"), .plus isWsChar, litW ("and"), .wordB],
   [.wordB, litW ("that"), .plus isWsChar, litW ("that"), .wordB],
   [litW ("."), .star isWsChar, .cls isWordChar],
   [.plus isWsChar, litW (",")],
   [.rep2 isWsChar]]

/-- `detectGrammarPerfection` (lines 162-180):
`max(0, (totalSentences - errors) / totalSentences)` where
`totalSentences` is the unfiltered `content.split(/[.!?]+/).length`. -/
def detectGrammarPerfection (content : String) : ℚ :=
  let errors := sumCounts grammarPatterns content
  let totalSentences := (splitRuns isSentencePunct content.data).length
  jsMax 0 (((totalSentences : ℚ) - (errors : ℚ)) / (totalSentences : ℚ))

/-- The twelve `genericPhrases` regexes (lines 183-196). -/
def genericPatterns : List Pat :=
  [[.wordB, litW ("in conclusion"), .wordB],
   [.wordB, litW ("in summary"), .wordB],
   [.wordB, litW ("to sum up"), .wordB],
   [.wordB, litW ("first and foremost"), .wordB],
   [.wordB, litW ("last but not least"), .wordB],
   [.wordB, litW ("it is important to note"), .wordB],
   [.wordB, litW ("it should be noted"), .wordB],
   [.wordB, litW ("it is worth mentioning"), .wordB],
   [.wordB, litW ("many experts believe"), .wordB],
   [.wordB, litW ("studies have shown"), .wordB],
   [.wordB, litW ("research indicates"), .wordB],
   [.wordB, litW ("according to experts"), .wordB]]

/-- `detectGenericPhrases` (lines 182-202). -/
def detectGenericPhrases (content : String) : Nat :=
  sumCounts genericPatterns content

/-- Word count per sentence: `sentences.map(s => s.trim().split(/\s+/).length)`. -/
def sentenceWordCounts (sentences : List (List Char)) : List Nat :=
  sentences.map fun s => (splitRuns isWsChar (trimChars s)).length

/-- The numerators of `analyzeSentenceVariation` (lines 204-210): the
variance and mean of the per-sentence word counts; `none` models the NaN
that `lengths.reduce(..) / 0` produces on an empty sentence list. -/
def svData (sentences : List (List Char)) : Option (ℚ × ℚ) :=
  let lengths := sentenceWordCounts sentences
  if lengths.length = 0 then none
  else
    let avgLength : ℚ := (lengths.sum : ℚ) / (lengths.length : ℚ)
    let variance : ℚ :=
      (lengths.foldl (fun sum len => sum + ((len : ℚ) - avgLength) ^ 2) 0) / (lengths.length : ℚ)
    some (variance, avgLength)

/-- `analyzeSentenceVariation` (lines 204-214):
`min(1, Math.sqrt(variance) / avgLength)`, NaN (`none`) on no sentences. -/
noncomputable def analyzeSentenceVariation (sentences : List (List Char)) : Option ℝ :=
  (svData sentences).map fun va => min 1 (Real.sqrt (va.1 : ℝ) / (va.2 : ℝ))

/-- The comparison `analyzeSentenceVariation(..) < c` as the classifier uses
it, kept computable: for `0 < c ≤ 1`, a non-negative variance and a positive
mean, `min(1, sqrt(v)/a) < c` iff `v < c² * a²` (proved in
`variationLt_spec` below); a NaN (`none`) compares false, as in JS. -/
def variationLt (d : Option (ℚ × ℚ)) (c : ℚ) : Bool :=
  match d with
  | none => false
  | some va => decide (va.1 < c ^ 2 * va.2 ^ 2)

/-- The ten `humanMarkers` regexes (lines 217-228). -/
def humanPatterns : List Pat :=
  [[.wordB, altW [("um"), ("uh"), ("er"), ("ah")], .wordB],
   [.wordB, altW [("well"), ("you know"), ("i mean"), ("like"), ("actually"),
                  ("basically"), ("literally")], .wordB],
   [.wordB, altW [("kinda"), ("sorta"), ("gonna"), ("wanna")], .wordB],
   [litW ("("), .star (fun c => c != ')'), litW (")")],
   [.wordB, litW ("trust me"), .wordB],
   [.wordB, litW ("believe me"), .wordB],
   [.wordB, litW ("to be honest"), .wordB],
   [.wordB, litW ("real talk"), .wordB],
   [.wordB, litW ("no kidding"), .wordB],
   [.wordB, litW ("for real"), .wordB]]

/-- `detectHumanMarkers` (lines 216-234). -/
def detectHumanMarkers (content : String) : Nat :=
  sumCounts humanPatterns content

/-- The eight `conversationalElements` regexes (lines 237-246). -/
def flowPatterns : List Pat :=
  [[litW ("?")],
   [litW ("!")],
   [.wordB, altW [("but"), ("and"), ("so"), ("because"), ("since"), ("while")],
    .plus isWsChar],
   [.wordB, litW ("you"), .wordB],
   [.wordB, litW ("we"), .wordB],
   [.wordB, litW ("let\x27s"), .wordB],
   [.wordB, litW ("here\x27s"), .wordB],
   [.wordB, litW ("there\x27s"), .wordB]]

/-- `analyzeConversationalFlow` (lines 236-254):
`min(1, totalElements / (wordCount * 0.1))`; `wordCount ≥ 1` always. -/
def analyzeConversationalFlow (content : String) : ℚ :=
  let totalElements := sumCounts flowPatterns content
  let wordCount := (splitRuns isWsChar content.data).length
  jsMin 1 ((totalElements : ℚ) / ((wordCount : ℚ) * (1 / 10)))

/-!
### The composite classifier (`analyzeContentForAI`, lines 27-107)
-/

/-- The `indicators` object (lines 33-42).  `sentenceVariationData` holds
the variance and mean computed by `analyzeSentenceVariation`; the
classifier only ever compares the variation against `0.3`, which
`variationLt` decides (see `variationLt_spec`). -/
structure Indicators where
  repetitivePatterns : Nat
  formalLanguage : ℚ
  lackOfPersonalTouches : Nat
  perfectGrammar : ℚ
  genericPhrases : Nat
  sentenceVariationData : Option (ℚ × ℚ)
  humanMarkers : Nat
  conversationalFlow : ℚ
deriving DecidableEq

def computeIndicators (content : String) : Indicators :=
  ⟨detectRepetitivePatterns content,
   detectFormalLanguage content,
   detectPersonalTouches content,
   detectGrammarPerfection content,
   detectGenericPhrases content,
   svData (contentSentences content),
   detectHumanMarkers content,
   analyzeConversationalFlow content⟩

/-- The running `aiScore` after lines 45-56, before clamping: the gated
increments followed by the two subtractions. -/
def aiScoreRaw (content : String) : ℚ :=
  let indicators := computeIndicators content
  let score0 : ℚ := 0
  let score1 := if 3 < indicators.repetitivePatterns then score0 + 15 else score0
  let score2 := if (7 : ℚ) / 10 < indicators.formalLanguage then score1 + 20 else score1
  let score3 := if indicators.lackOfPersonalTouches < 2 then score2 + 25 else score2
  let score4 := if (95 : ℚ) / 100 < indicators.perfectGrammar then score3 + 15 else score3
  let score5 := if 5 < indicators.genericPhrases then score4 + 15 else score4
  let score6 :=
    if variationLt indicators.sentenceVariationData (3 / 10) then score5 + 10 else score5
  let score7 := score6 - 5 * (indicators.humanMarkers : ℚ)
  score7 - 10 * indicators.conversationalFlow

/-- Line 58: `aiScore = Math.max(0, Math.min(100, aiScore))`. -/
def aiScoreClamped (content : String) : ℚ :=
  jsMax 0 (jsMin 100 (aiScoreRaw content))

/-- `getVerdict` (lines 257-263). -/
def getVerdict (aiScore : ℚ) : String :=
  if 80 ≤ aiScore then ("Very likely AI-generated")
  else if 60 ≤ aiScore then ("Possibly AI-generated")
  else if 40 ≤ aiScore then ("Mixed signals - uncertain")
  else if 20 ≤ aiScore then ("Likely human-written")
  else ("Very likely human-written")

/-- `getConfidenceLevel` (lines 265-269). -/
def getConfidenceLevel (aiScore : ℚ) : String :=
  if 80 ≤ aiScore ∨ aiScore ≤ 20 then ("High")
  else if 60 ≤ aiScore ∨ aiScore ≤ 40 then ("Medium")
  else ("Low")

/-- Worker for the literal `content.split('\n\n')`. -/
def splitSepGo (sep : List Char) : Nat → List Char → List Char → List (List Char)
  | 0, cur, s => [cur.reverse ++ s]
  | fuel + 1, cur, s =>
      match consumeLit sep s with
      | some rest => cur.reverse :: splitSepGo sep fuel [] rest
      | none =>
          match s with
          | [] => [cur.reverse]
          | c :: rest => splitSepGo sep fuel (c :: cur) rest

/-- `String.prototype.split` with a literal (non-empty) separator. -/
def splitSep (sep : List Char) (s : List Char) : List (List Char) :=
  splitSepGo sep (s.length + 1) [] s

/-- `Math.round`: round half toward positive infinity. -/
def jsRound (q : ℚ) : ℤ := ⌊q + 1 / 2⌋

/-- The classification result, restricted to its numeric fields, the two
labels, and the indicator scores echoed into the `analysis.indicators`
breakdown.  `averageWordsPerSentence` is `Option`al because
`Math.round(words.length / sentences.length)` is Infinity when there are
no sentences. -/
structure AiAnalysis where
  aiProbability : ℚ
  humanProbability : ℚ
  verdict : String
  confidence : String
  wordCount : Nat
  sentenceCount : Nat
  paragraphCount : Nat
  averageWordsPerSentence : Option ℤ
  indicators : Indicators
deriving DecidableEq

/-- `analyzeContentForAI` (lines 27-107), numeric core. -/
def analyzeContentForAI (content : String) : AiAnalysis :=
  let words := splitRuns isWsChar content.data
  let sentences := contentSentences content
  let paragraphs := (splitSep (("\n\n").data) content.data).filter fun p =>
    decide (0 < (trimChars p).length)
  let indicators := computeIndicators content
  let aiScore := aiScoreClamped content
  ⟨aiScore, 100 - aiScore, getVerdict aiScore, getConfidenceLevel aiScore,
   words.length, sentences.length, paragraphs.length,
   (jsDiv (words.length : ℚ) (sentences.length : ℚ)).map jsRound,
   indicators⟩

/-!
### Supporting lemmas
-/

/-- A JS `split` never returns an empty array. -/
theorem splitRunsGo_ne_nil (f : Char → Bool) (s : List Char) :
    ∀ cur, splitRunsGo f cur s ≠ [] := by
  induction s with
  | nil => intro cur; simp [splitRunsGo]
  | cons c rest ih =>
      intro cur
      unfold splitRunsGo
      split_ifs with h
      · simp
      · exact ih _

theorem splitRuns_ne_nil (f : Char → Bool) (s : List Char) : splitRuns f s ≠ [] :=
  splitRunsGo_ne_nil f s []

theorem jsMax_nonneg (b : ℚ) : 0 ≤ jsMax 0 b := by
  unfold jsMax
  split_ifs with h
  · exact h
  · exact le_refl 0

theorem analyzeConversationalFlow_nonneg (content : String) :
    0 ≤ analyzeConversationalFlow content := by
  unfold analyzeConversationalFlow jsMin
  dsimp only
  split_ifs with h
  · norm_num
  · positivity

/-!
### C1 — zero-token density report
-/

/-- Fifty characters of punctuation: passes the 50-character boundary check
but tokenizes to the empty token stream. -/
def zeroTokenInput : String := "!!!!!!!!!!!!!!!!!!!!!!!!!!!!!!!!!!!!!!!!!!!!!!!!!!"

/-- C1: on a 50-character input whose token stream is empty, the engine
does return zero `totalWords`, `uniqueKeywords`, an empty keyword list and
zero `topKeywordDensity` — but `avgDensity` is the NaN of
`0 / keywords.length` (modelled `none`), not the `0` the claim requires:
the claimed division guard is absent from the code. -/
theorem c1_zero_token_report :
    (trimChars zeroTokenInput.data).length = 50 ∧
    tokenize zeroTokenInput = [] ∧
    (keywordReport zeroTokenInput).totalWords = 0 ∧
    (keywordReport zeroTokenInput).uniqueKeywords = 0 ∧
    (keywordReport zeroTokenInput).keywords = [] ∧
    (keywordReport zeroTokenInput).topKeywordDensity = 0 ∧
    (keywordReport zeroTokenInput).avgDensity = none := by
  with_unfolding_all decide

/-!
### C2 — detector on zero-sentence input
-/

/-- C2: the same 50-character punctuation-only input has zero sentences
after splitting on `[.!?]`, and the classifier's
`averageWordsPerSentence = Math.round(words.length / sentences.length)` is
then Infinity (modelled `none`), as is the NaN variance data — the
classifier is not NaN-free on degenerate input. -/
theorem c2_detector_nonfinite :
    50 ≤ zeroTokenInput.length ∧
    (analyzeContentForAI zeroTokenInput).sentenceCount = 0 ∧
    (analyzeContentForAI zeroTokenInput).averageWordsPerSentence = none ∧
    (analyzeContentForAI zeroTokenInput).indicators.sentenceVariationData = none := by
  with_unfolding_all decide

/-!
### C3 — probability bounds; integrality fails
-/

/-- An 88-character text: three 5-word sentences with one connector word
(`and`), so `conversationalFlow = min(1, 1 / (15 * 0.1)) = 2/3` and the
score `25 + 10 - 10 * (2/3) = 85/3` is not an integer. -/
def fractionalScoreInput : String :=
  "alpha and charlie delta echo. fox golf hotel india julia. kilo lima mike november oscar."

/-- C3 counterexample: at `fractionalScoreInput` the classifier returns
`aiProbability = 85/3`, which is not an integer — the subtraction of
`10 * conversationalFlow` produces fractional scores. -/
theorem c3_integer_cex :
    50 ≤ fractionalScoreInput.length ∧
    ¬ ∃ n : ℤ, (analyzeContentForAI fractionalScoreInput).aiProbability = (n : ℚ) := by
  refine ⟨by with_unfolding_all decide, ?_⟩
  rintro ⟨n, hn⟩
  have hden : (analyzeContentForAI fractionalScoreInput).aiProbability.den = 3 := by
    with_unfolding_all decide
  rw [hn] at hden
  simp [Rat.den_intCast] at hden

/-- C3 amended: for every input of at least 50 characters, `aiProbability`
is a rational (not necessarily integral) value in `[0, 100]` and
`humanProbability = 100 - aiProbability`. -/
theorem c3_probability_bounds (content : String) (h : 50 ≤ content.length) :
    0 ≤ (analyzeContentForAI content).aiProbability ∧
    (analyzeContentForAI content).aiProbability ≤ 100 ∧
    (analyzeContentForAI content).humanProbability
      = 100 - (analyzeContentForAI content).aiProbability := by
  clear h
  have h1 : (analyzeContentForAI content).aiProbability = aiScoreClamped content := rfl
  have h2 : (analyzeContentForAI content).humanProbability
      = 100 - aiScoreClamped content := rfl
  refine ⟨?_, ?_, by rw [h1, h2]⟩
  · rw [h1]
    exact jsMax_nonneg _
  · rw [h1]
    unfold aiScoreClamped jsMax jsMin
    split_ifs <;> linarith

theorem c3_probability_bounds_witness :
    50 ≤ fractionalScoreInput.length ∧
    0 ≤ (analyzeContentForAI fractionalScoreInput).aiProbability :=
  ⟨by with_unfolding_all decide,
   (c3_probability_bounds fractionalScoreInput (by with_unfolding_all decide)).1⟩

/-!
### C4 — the score combination formula
-/

/-- C4: the pre-clamp score is exactly the sum of the six gated increments
minus `5 * humanMarkerCount` and `10 * conversationalFlow`; the two
subtracted terms never increase the score; and `aiProbability` is the
pre-clamp score clamped to `[0, 100]`. -/
theorem c4_score_formula (content : String) :
    aiScoreRaw content =
      (if 3 < (computeIndicators content).repetitivePatterns then (15 : ℚ) else 0) +
      (if (7 : ℚ) / 10 < (computeIndicators content).formalLanguage then 20 else 0) +
      (if (computeIndicators content).lackOfPersonalTouches < 2 then 25 else 0) +
      (if (95 : ℚ) / 100 < (computeIndicators content).perfectGrammar then 15 else 0) +
      (if 5 < (computeIndicators content).genericPhrases then 15 else 0) +
      (if variationLt (computeIndicators content).sentenceVariationData (3 / 10) then 10
       else 0) -
      5 * ((computeIndicators content).humanMarkers : ℚ) -
      10 * (computeIndicators content).conversationalFlow ∧
    aiScoreRaw content ≤
      (if 3 < (computeIndicators content).repetitivePatterns then (15 : ℚ) else 0) +
      (if (7 : ℚ) / 10 < (computeIndicators content).formalLanguage then 20 else 0) +
      (if (computeIndicators content).lackOfPersonalTouches < 2 then 25 else 0) +
      (if (95 : ℚ) / 100 < (computeIndicators content).perfectGrammar then 15 else 0) +
      (if 5 < (computeIndicators content).genericPhrases then 15 else 0) +
      (if variationLt (computeIndicators content).sentenceVariationData (3 / 10) then 10
       else 0) ∧
    aiScoreClamped content = jsMax 0 (jsMin 100 (aiScoreRaw content)) := by
  have hm : (0 : ℚ) ≤ ((computeIndicators content).humanMarkers : ℚ) := by positivity
  have hf : 0 ≤ (computeIndicators content).conversationalFlow :=
    analyzeConversationalFlow_nonneg content
  refine ⟨?_, ?_, rfl⟩
  · unfold aiScoreRaw
    dsimp only
    split_ifs <;> ring
  · unfold aiScoreRaw
    dsimp only
    split_ifs <;> linarith

/-!
### C5 — verdict and confidence bands
-/

/-- C5 counterexample: the code's middle verdict string is spelled with an
ASCII hyphen, `"Mixed signals - uncertain"`, not the claimed em-dash
variant. -/
theorem c5_verdict_string_cex :
    getVerdict 40 = ("Mixed signals - uncertain") ∧
    ("Mixed signals - uncertain" : String) ≠ ("Mixed signals — uncertain") := by
  with_unfolding_all decide

/-- C5 amended: the verdict bands are `≥80`, `≥60`, `≥40`, `≥20`, else —
with the middle verdict spelled `"Mixed signals - uncertain"` — and
confidence is High for `≥80 ∨ ≤20`, Medium for `≥60 ∨ ≤40` otherwise, Low
in between; this fixes every band boundary. -/
theorem c5_verdict_bands (q : ℚ) :
    (80 ≤ q → getVerdict q = ("Very likely AI-generated")) ∧
    (60 ≤ q → q < 80 → getVerdict q = ("Possibly AI-generated")) ∧
    (40 ≤ q → q < 60 → getVerdict q = ("Mixed signals - uncertain")) ∧
    (20 ≤ q → q < 40 → getVerdict q = ("Likely human-written")) ∧
    (q < 20 → getVerdict q = ("Very likely human-written")) ∧
    ((80 ≤ q ∨ q ≤ 20) → getConfidenceLevel q = ("High")) ∧
    (20 < q → q < 80 → (60 ≤ q ∨ q ≤ 40) → getConfidenceLevel q = ("Medium")) ∧
    (40 < q → q < 60 → getConfidenceLevel q = ("Low")) := by
  refine ⟨?_, ?_, ?_, ?_, ?_, ?_, ?_, ?_⟩
  · intro h1
    unfold getVerdict
    rw [if_pos h1]
  · intro h1 h2
    unfold getVerdict
    rw [if_neg (by linarith), if_pos h1]
  · intro h1 h2
    unfold getVerdict
    rw [if_neg (by linarith), if_neg (by linarith), if_pos h1]
  · intro h1 h2
    unfold getVerdict
    rw [if_neg (by linarith), if_neg (by linarith), if_neg (by linarith), if_pos h1]
  · intro h1
    unfold getVerdict
    rw [if_neg (by linarith), if_neg (by linarith), if_neg (by linarith),
        if_neg (by linarith)]
  · intro h1
    unfold getConfidenceLevel
    rw [if_pos h1]
  · intro h1 h2 h3
    unfold getConfidenceLevel
    rw [if_neg ?_, if_pos h3]
    rintro (h | h) <;> linarith
  · intro h1 h2
    unfold getConfidenceLevel
    rw [if_neg ?_, if_neg ?_]
    · rintro (h | h) <;> linarith
    · rintro (h | h) <;> linarith

theorem c5_verdict_bands_witness :
    ((80 : ℚ) ≤ 80 ∧ getVerdict 80 = ("Very likely AI-generated")) ∧
    ((40 : ℚ) < 50 ∧ (50 : ℚ) < 60 ∧ getConfidenceLevel 50 = ("Low")) :=
  ⟨⟨by norm_num, (c5_verdict_bands 80).1 (by norm_num)⟩,
   ⟨by norm_num, by norm_num,
    (c5_verdict_bands 50).2.2.2.2.2.2.2 (by norm_num) (by norm_num)⟩⟩

/-!
### C6 — density tier thresholds and monotonicity
-/

theorem statusOf_eq_low (d : ℚ) : statusOf d = .low ↔ d < 1 := by
  unfold statusOf
  split_ifs <;> simp_all

theorem statusOf_eq_good (d : ℚ) : statusOf d = .good ↔ 1 ≤ d ∧ d < 2 := by
  unfold statusOf
  split_ifs <;> simp_all <;>
    first | (constructor <;> linarith) | (intro; linarith) | linarith

theorem statusOf_eq_optimal (d : ℚ) : statusOf d = .optimal ↔ 2 ≤ d ∧ d < 4 := by
  unfold statusOf
  split_ifs <;> simp_all <;>
    first | (constructor <;> linarith) | (intro; linarith) | linarith

theorem statusOf_eq_high (d : ℚ) : statusOf d = .high ↔ 4 ≤ d := by
  unfold statusOf
  split_ifs <;> simp_all <;>
    first | (constructor <;> linarith) | (intro; linarith) | linarith

theorem statusOf_rank_mono {d e : ℚ} (h : d ≤ e) :
    (statusOf d).rank ≤ (statusOf e).rank := by
  unfold statusOf
  split_ifs <;> simp only [DensityStatus.rank] <;> first | omega | (exfalso; linarith)

/-- C6: the tier of a density value is `low` below 1, `good` on `[1, 2)`,
`optimal` on `[2, 4)` and `high` from 4 up; the tier rank is a
non-decreasing function of density, and each boundary belongs to the upper
tier. -/
theorem c6_tier_bands (d e : ℚ) :
    (statusOf d = .low ↔ d < 1) ∧
    (statusOf d = .good ↔ 1 ≤ d ∧ d < 2) ∧
    (statusOf d = .optimal ↔ 2 ≤ d ∧ d < 4) ∧
    (statusOf d = .high ↔ 4 ≤ d) ∧
    (d ≤ e → (statusOf d).rank ≤ (statusOf e).rank) ∧
    statusOf 1 = .good ∧ statusOf 2 = .optimal ∧ statusOf 4 = .high :=
  ⟨statusOf_eq_low d, statusOf_eq_good d, statusOf_eq_optimal d, statusOf_eq_high d,
   fun h => statusOf_rank_mono h,
   by norm_num [statusOf], by norm_num [statusOf], by norm_num [statusOf]⟩

theorem c6_tier_bands_witness :
    (1 : ℚ) ≤ 2 ∧ (statusOf 1).rank ≤ (statusOf 2).rank :=
  ⟨by norm_num, (c6_tier_bands 1 2).2.2.2.2.1 (by norm_num)⟩

/-!
### C10 — grammar-perfection extractor bounds
-/

/-- C10: the sentence count used as the denominator of
`detectGrammarPerfection` is at least 1 for every input (a JS `split`
never returns an empty array), and the extractor's value lies in `[0, 1]`. -/
theorem c10_grammar_bounds (content : String) :
    1 ≤ (splitRuns isSentencePunct content.data).length ∧
    0 ≤ detectGrammarPerfection content ∧ detectGrammarPerfection content ≤ 1 := by
  have hne : splitRuns isSentencePunct content.data ≠ [] :=
    splitRuns_ne_nil isSentencePunct content.data
  have hlen : 1 ≤ (splitRuns isSentencePunct content.data).length := by
    cases hl : splitRuns isSentencePunct content.data with
    | nil => exact absurd hl hne
    | cons a l => simp
  refine ⟨hlen, jsMax_nonneg _, ?_⟩
  have hpos : (0 : ℚ) < ((splitRuns isSentencePunct content.data).length : ℚ) := by
    exact_mod_cast Nat.lt_of_lt_of_le Nat.zero_lt_one hlen
  unfold detectGrammarPerfection jsMax
  dsimp only
  split_ifs with h
  · rw [div_le_one hpos]
    have : (0 : ℚ) ≤ (sumCounts grammarPatterns content : ℚ) := by positivity
    linarith
  · norm_num

/-!
### Sorting lemmas (membership, order, stability) for C7 and C8
-/

theorem mem_insertByFreq {a x : KeywordRecord} {l : List KeywordRecord} :
    a ∈ insertByFreq x l ↔ a = x ∨ a ∈ l := by
  induction l with
  | nil => simp [insertByFreq]
  | cons y ys ih =>
      unfold insertByFreq
      split_ifs with h
      · simp [List.mem_cons]
      · simp only [List.mem_cons, ih]
        tauto

theorem mem_sortByFreqDesc {a : KeywordRecord} {l : List KeywordRecord} :
    a ∈ sortByFreqDesc l ↔ a ∈ l := by
  induction l with
  | nil => simp [sortByFreqDesc]
  | cons x xs ih => simp [sortByFreqDesc, mem_insertByFreq, ih]

theorem pairwise_insertByFreq {x : KeywordRecord} {l : List KeywordRecord}
    (hl : l.Pairwise fun a b => b.frequency ≤ a.frequency) :
    (insertByFreq x l).Pairwise fun a b => b.frequency ≤ a.frequency := by
  induction l with
  | nil => simp [insertByFreq]
  | cons y ys ih =>
      rw [List.pairwise_cons] at hl
      obtain ⟨hy, hys⟩ := hl
      unfold insertByFreq
      split_ifs with h
      · refine List.Pairwise.cons ?_ (List.Pairwise.cons hy hys)
        intro z hz
        rcases List.mem_cons.mp hz with rfl | hz'
        · exact h
        · exact le_trans (hy z hz') h
      · refine List.Pairwise.cons ?_ (ih hys)
        intro z hz
        rcases mem_insertByFreq.mp hz with rfl | hz'
        · exact le_of_not_le h
        · exact hy z hz'

theorem pairwise_sortByFreqDesc (l : List KeywordRecord) :
    (sortByFreqDesc l).Pairwise fun a b => b.frequency ≤ a.frequency := by
  induction l with
  | nil => simp [sortByFreqDesc]
  | cons x xs ih => exact pairwise_insertByFreq ih

/-- Stability of one insertion step: among the records of one frequency,
the inserted record lands in front exactly when it has that frequency,
because every record it skips over has a strictly larger frequency. -/
theorem filter_insertByFreq (x : KeywordRecord) (l : List KeywordRecord) (f : Nat) :
    (insertByFreq x l).filter (fun r => decide (r.frequency = f))
      = if x.frequency = f
        then x :: l.filter (fun r => decide (r.frequency = f))
        else l.filter (fun r => decide (r.frequency = f)) := by
  induction l with
  | nil =>
      by_cases hx : x.frequency = f
      · simp [insertByFreq, List.filter, hx]
      · simp [insertByFreq, List.filter, hx]
  | cons y ys ih =>
      unfold insertByFreq
      by_cases h : y.frequency ≤ x.frequency
      · rw [if_pos h]
        by_cases hx : x.frequency = f
        · simp [List.filter_cons, hx]
        · simp [List.filter_cons, hx]
      · rw [if_neg h]
        by_cases hx : x.frequency = f
        · have hy : ¬ y.frequency = f := fun hh => h ((hh.trans hx.symm).le)
          simp [List.filter_cons, ih, hx, hy]
        · simp [List.filter_cons, ih, hx]

theorem filter_sortByFreqDesc (l : List KeywordRecord) (f : Nat) :
    (sortByFreqDesc l).filter (fun r => decide (r.frequency = f))
      = l.filter (fun r => decide (r.frequency = f)) := by
  induction l with
  | nil => rfl
  | cons x xs ih =>
      show (insertByFreq x (sortByFreqDesc xs)).filter _ = _
      rw [filter_insertByFreq, List.filter_cons]
      by_cases hx : x.frequency = f
      · rw [if_pos hx, ih, if_pos (by simp [hx])]
      · rw [if_neg hx, ih, if_neg (by simp [hx])]

/-!
### Association-list counting lemmas (for C9)
-/

/-- First-match lookup in the entry list, with default 0: the JS
`map.get(k) || 0`. -/
def lookupCount : List (List Char × Nat) → List Char → Nat
  | [], _ => 0
  | e :: rest, k => if e.1 = k then e.2 else lookupCount rest k

theorem lookupCount_bump (w : List Char) (acc : List (List Char × Nat)) (k : List Char) :
    lookupCount (bumpWord w acc) k
      = if k = w then lookupCount acc k + 1 else lookupCount acc k := by
  induction acc with
  | nil =>
      by_cases h : k = w
      · subst h; simp [bumpWord, lookupCount]
      · simp [bumpWord, lookupCount, h, Ne.symm h]
  | cons e rest ih =>
      obtain ⟨k', n⟩ := e
      by_cases hkw : k' = w
      · subst hkw
        by_cases hk : k = k'
        · subst hk; simp [bumpWord, lookupCount]
        · simp [bumpWord, lookupCount, hk, Ne.symm hk]
      · by_cases hk : k' = k
        · subst hk
          have : ¬ k' = w := hkw
          simp [bumpWord, lookupCount, hkw, Ne.symm hkw, this]
        · simp [bumpWord, lookupCount, hkw, hk, ih]

theorem keys_bump (w : List Char) (acc : List (List Char × Nat)) :
    (bumpWord w acc).map Prod.fst
      = if w ∈ acc.map Prod.fst then acc.map Prod.fst else acc.map Prod.fst ++ [w] := by
  induction acc with
  | nil => simp [bumpWord]
  | cons e rest ih =>
      obtain ⟨k', n⟩ := e
      by_cases hkw : k' = w
      · subst hkw; simp [bumpWord]
      · by_cases hmem : w ∈ rest.map Prod.fst
        · simp [bumpWord, hkw, ih, hmem, Ne.symm hkw]
        · simp [bumpWord, hkw, ih, hmem, Ne.symm hkw]

theorem nodup_keys_bump (w : List Char) (acc : List (List Char × Nat))
    (h : (acc.map Prod.fst).Nodup) : ((bumpWord w acc).map Prod.fst).Nodup := by
  rw [keys_bump]
  split_ifs with hw
  · exact h
  · rw [List.nodup_append]
    exact ⟨h, List.nodup_singleton w, by simpa [List.disjoint_singleton] using hw⟩

theorem mem_keys_pair (acc : List (List Char × Nat)) (k : List Char)
    (h : k ∈ acc.map Prod.fst) : (k, lookupCount acc k) ∈ acc := by
  induction acc with
  | nil => simp at h
  | cons e rest ih =>
      obtain ⟨k', n⟩ := e
      by_cases hk : k' = k
      · subst hk
        simp [lookupCount]
      · rw [List.map_cons, List.mem_cons] at h
        rcases h with h | h
        · exact absurd h.symm hk
        · simp only [lookupCount, if_neg hk]
          exact List.mem_cons_of_mem _ (ih h)

theorem pair_mem_val (acc : List (List Char × Nat)) (k : List Char) (n : Nat)
    (hnd : (acc.map Prod.fst).Nodup) (h : (k, n) ∈ acc) : n = lookupCount acc k := by
  induction acc with
  | nil => simp at h
  | cons e rest ih =>
      obtain ⟨k', m⟩ := e
      rw [List.map_cons, List.nodup_cons] at hnd
      rcases List.mem_cons.mp h with heq | hmem
      · cases heq
        simp [lookupCount]
      · have hk : ¬ k' = k := by
          intro hkk
          subst hkk
          exact hnd.1 (List.mem_map.mpr ⟨(k', n), hmem, rfl⟩)
        simp only [lookupCount, if_neg hk]
        exact ih hnd.2 hmem

theorem buildFreqAux_lookup (ws : List (List Char)) :
    ∀ (acc : List (List Char × Nat)) (k : List Char),
      lookupCount (ws.foldl (fun a w => bumpWord w a) acc) k
        = lookupCount acc k + ws.count k := by
  induction ws with
  | nil => intro acc k; simp
  | cons w ws ih =>
      intro acc k
      rw [List.foldl_cons, ih, lookupCount_bump]
      by_cases h : k = w
      · subst h
        simp [List.count_cons]
        omega
      · simp [List.count_cons, h]

theorem buildFreqAux_keys (ws : List (List Char)) :
    ∀ (acc : List (List Char × Nat)) (k : List Char),
      (k ∈ ((ws.foldl (fun a w => bumpWord w a) acc).map Prod.fst)
        ↔ k ∈ acc.map Prod.fst ∨ k ∈ ws) := by
  induction ws with
  | nil => intro acc k; simp
  | cons w ws ih =>
      intro acc k
      rw [List.foldl_cons, ih, keys_bump]
      split_ifs with hw
      · by_cases hkw : k = w
        · subst hkw; simp [hw]
        · simp [hkw]
      · by_cases hkw : k = w
        · subst hkw; simp
        · simp [hkw]

theorem buildFreqAux_nodup (ws : List (List Char)) :
    ∀ (acc : List (List Char × Nat)), (acc.map Prod.fst).Nodup →
      (((ws.foldl (fun a w => bumpWord w a) acc).map Prod.fst)).Nodup := by
  induction ws with
  | nil => intro acc h; simpa using h
  | cons w ws ih =>
      intro acc h
      rw [List.foldl_cons]
      exact ih _ (nodup_keys_bump w acc h)

theorem buildFreq_lookup (l : List (List Char)) (k : List Char) :
    lookupCount (buildFreq l) k = l.count k := by
  have := buildFreqAux_lookup l [] k
  simpa [buildFreq, lookupCount] using this

theorem buildFreq_keys_mem (l : List (List Char)) (k : List Char) :
    k ∈ (buildFreq l).map Prod.fst ↔ k ∈ l := by
  have := buildFreqAux_keys l [] k
  simpa [buildFreq] using this

theorem buildFreq_keys_nodup (l : List (List Char)) :
    ((buildFreq l).map Prod.fst).Nodup := by
  have := buildFreqAux_nodup l [] (by simp)
  simpa [buildFreq] using this

/-- The number of entries of the frequency map whose count exceeds one is
the number of distinct list elements occurring more than once. -/
theorem buildFreq_recurring_length (l : List (List Char)) :
    ((buildFreq l).filter fun e => decide (1 < e.2)).length
      = (l.dedup.filter fun p => decide (1 < l.count p)).length := by
  have h1 : (((buildFreq l).filter fun e => decide (1 < e.2)).map Prod.fst).Nodup :=
    (buildFreq_keys_nodup l).sublist ((List.filter_sublist _).map Prod.fst)
  have h2 : (l.dedup.filter fun p => decide (1 < l.count p)).Nodup :=
    (List.nodup_dedup l).filter _
  have hmem : ∀ x,
      x ∈ ((buildFreq l).filter fun e => decide (1 < e.2)).map Prod.fst
        ↔ x ∈ l.dedup.filter fun p => decide (1 < l.count p) := by
    intro x
    constructor
    · intro hx
      obtain ⟨e, he, hfst⟩ := List.mem_map.mp hx
      obtain ⟨hein, hegt⟩ := List.mem_filter.mp he
      obtain ⟨k, n⟩ := e
      cases hfst
      have hval : n = lookupCount (buildFreq l) k := by
        exact pair_mem_val _ _ _ (buildFreq_keys_nodup l) hein
      rw [buildFreq_lookup] at hval
      have hmem2 : k ∈ l := by
        rw [← buildFreq_keys_mem l k]
        exact List.mem_map_of_mem Prod.fst hein
      rw [List.mem_filter, List.mem_dedup]
      refine ⟨hmem2, ?_⟩
      simp only [decide_eq_true_eq] at hegt ⊢
      omega
    · intro hx
      obtain ⟨hmem2, hgt⟩ := List.mem_filter.mp hx
      rw [List.mem_dedup] at hmem2
      simp only [decide_eq_true_eq] at hgt
      have hkeys : x ∈ (buildFreq l).map Prod.fst := (buildFreq_keys_mem l x).mpr hmem2
      have hpair := mem_keys_pair _ _ hkeys
      refine List.mem_map.mpr ⟨(x, lookupCount (buildFreq l) x), ?_, rfl⟩
      rw [List.mem_filter]
      refine ⟨hpair, ?_⟩
      simp only [decide_eq_true_eq, buildFreq_lookup]
      omega
  have hperm := (List.perm_ext_iff_of_nodup h1 h2).mpr hmem
  calc ((buildFreq l).filter fun e => decide (1 < e.2)).length
      = (((buildFreq l).filter fun e => decide (1 < e.2)).map Prod.fst).length :=
        (List.length_map _ _).symm
    _ = (l.dedup.filter fun p => decide (1 < l.count p)).length := hperm.length_eq

/-!
### The variation gate agrees with the real-valued extractor
-/

theorem length_le_sum_of_one_le (L : List Nat) (h : ∀ x ∈ L, 1 ≤ x) :
    L.length ≤ L.sum := by
  induction L with
  | nil => simp
  | cons a l ih =>
      simp only [List.length_cons, List.sum_cons]
      have ha := h a (List.mem_cons_self a l)
      have hl := ih fun x hx => h x (List.mem_cons_of_mem a hx)
      omega

/-- For a positive mean, `min(1, sqrt(v)/a) < 0.3` iff `v < 0.3² * a²`:
the square-free comparison `variationLt` decides. -/
theorem min_sqrt_div_lt (v a : ℚ) (ha : 0 < a) :
    min 1 (Real.sqrt (v : ℝ) / (a : ℝ)) < 3 / 10 ↔ v < (3 / 10) ^ 2 * a ^ 2 := by
  have haR : (0 : ℝ) < (a : ℝ) := by exact_mod_cast ha
  have h1 : min 1 (Real.sqrt (v : ℝ) / (a : ℝ)) < 3 / 10
      ↔ Real.sqrt (v : ℝ) / (a : ℝ) < 3 / 10 := by
    rw [min_lt_iff]
    constructor
    · rintro (h | h)
      · norm_num at h
      · exact h
    · exact Or.inr
  rw [h1, div_lt_iff haR, Real.sqrt_lt' (by positivity)]
  have h2 : ((3 : ℝ) / 10 * (a : ℝ)) ^ 2 = (((3 / 10) ^ 2 * a ^ 2 : ℚ) : ℝ) := by
    push_cast
    ring
  rw [h2]
  exact_mod_cast Iff.rfl

theorem svData_some_of_ne_nil (sentences : List (List Char)) (hne : sentences ≠ []) :
    ∃ v a, svData sentences = some (v, a) ∧ (0 : ℚ) < a := by
  have hlen : sentenceWordCounts sentences ≠ [] := by
    unfold sentenceWordCounts
    simpa using hne
  have hone : ∀ x ∈ sentenceWordCounts sentences, 1 ≤ x := by
    intro x hx
    obtain ⟨s, hs, rfl⟩ := List.mem_map.mp hx
    cases hl : splitRuns isWsChar (trimChars s) with
    | nil => exact absurd hl (splitRuns_ne_nil _ _)
    | cons a l => simp
  have hlpos : 0 < (sentenceWordCounts sentences).length := List.length_pos.mpr hlen
  have hsum : 0 < (sentenceWordCounts sentences).sum :=
    Nat.lt_of_lt_of_le hlpos (length_le_sum_of_one_le _ hone)
  have hnz : ¬ (sentenceWordCounts sentences).length = 0 := Nat.pos_iff_ne_zero.mp hlpos
  unfold svData
  dsimp only
  rw [if_neg hnz]
  exact ⟨_, _, rfl, div_pos (by exact_mod_cast hsum) (by exact_mod_cast hlpos)⟩

/-- The computable comparison used by the classifier agrees with
`analyzeSentenceVariation(..) < 0.3` whenever at least one sentence
exists; with no sentences both sides behave like NaN: the gate is false
and no finite value exists. -/
theorem variationLt_spec (sentences : List (List Char)) (hne : sentences ≠ []) :
    variationLt (svData sentences) (3 / 10) = true
      ↔ ∃ r : ℝ, analyzeSentenceVariation sentences = some r ∧ r < 3 / 10 := by
  obtain ⟨v, a, hsv, ha⟩ := svData_some_of_ne_nil sentences hne
  unfold analyzeSentenceVariation
  rw [hsv]
  simp only [variationLt, Option.map_some', decide_eq_true_eq]
  constructor
  · intro h
    exact ⟨_, rfl, (min_sqrt_div_lt v a ha).mpr h⟩
  · rintro ⟨r, hr, hlt⟩
    have hre := Option.some.inj hr
    rw [← hre] at hlt
    exact (min_sqrt_div_lt v a ha).mp hlt

/-!
### C7 — keyword record invariants
-/

/-- Twelve tokens, eleven of them `apple`: the density of `kiwi` is
`100/12 = 8.333…`, which the handler stores rounded as `8.33`. -/
def roundingInput : String :=
  "apple apple apple apple apple apple apple apple apple apple apple kiwi"

/-- The record the handler produces for `kiwi` in `roundingInput`. -/
def kiwiRecord : KeywordRecord := ⟨("kiwi").data, 1, 833 / 100, .high⟩

/-- C7 counterexample: the stored `density` of the `kiwi` record is the
two-decimal rounding `8.33`, not the exact `100 * 1 / 12 = 8.333…` the
claim asserts. -/
theorem c7_density_exact_cex :
    kiwiRecord ∈ (keywordReport roundingInput).keywords ∧
    kiwiRecord.density ≠
      100 * (kiwiRecord.frequency : ℚ) / ((keywordReport roundingInput).totalWords : ℚ) := by
  with_unfolding_all decide

/-- C7 amended: every returned record stores
`density = round2((frequency / totalWords) * 100)` and its tier is
`statusOf` of the unrounded ratio — so the tier is a pure function of
`frequency / totalWords`, computed before the stored rounding. -/
theorem c7_record_fields (content : String) (r : KeywordRecord)
    (hr : r ∈ (keywordReport content).keywords) :
    r.density
      = round2 ((r.frequency : ℚ) / ((keywordReport content).totalWords : ℚ) * 100) ∧
    r.status
      = statusOf ((r.frequency : ℚ) / ((keywordReport content).totalWords : ℚ) * 100) := by
  have hk : (keywordReport content).keywords
      = (sortByFreqDesc ((buildFreq (tokenize content)).map
          (mkRecord (tokenize content).length))).take 20 := rfl
  have ht : (keywordReport content).totalWords = (tokenize content).length := rfl
  rw [hk] at hr
  have hr2 := List.take_subset _ _ hr
  rw [mem_sortByFreqDesc] at hr2
  obtain ⟨e, he, rfl⟩ := List.mem_map.mp hr2
  rw [ht]
  exact ⟨rfl, rfl⟩

theorem c7_record_fields_witness :
    kiwiRecord ∈ (keywordReport roundingInput).keywords ∧
    kiwiRecord.density
      = round2 ((kiwiRecord.frequency : ℚ)
          / ((keywordReport roundingInput).totalWords : ℚ) * 100) :=
  ⟨by with_unfolding_all decide,
   (c7_record_fields roundingInput kiwiRecord (by with_unfolding_all decide)).1⟩

/-!
### C8 — top-keyword list: bound, order, stable ties
-/

/-- C8: the returned keyword list has at most 20 records, is ordered by
non-increasing frequency, and for every frequency value the records
having it appear as a prefix of the first-seen-ordered records with that
frequency — JS `Array.sort` is stable, so ties keep first-seen token
order. -/
theorem c8_top_keywords (content : String) :
    (keywordReport content).keywords.length ≤ 20 ∧
    (keywordReport content).keywords.Pairwise (fun a b => b.frequency ≤ a.frequency) ∧
    ∀ f : Nat, ∃ t,
      (keywordReport content).keywords.filter (fun r => decide (r.frequency = f)) ++ t
        = ((buildFreq (tokenize content)).map
            (mkRecord (tokenize content).length)).filter
              (fun r => decide (r.frequency = f)) := by
  have hk : (keywordReport content).keywords
      = (sortByFreqDesc ((buildFreq (tokenize content)).map
          (mkRecord (tokenize content).length))).take 20 := rfl
  refine ⟨?_, ?_, ?_⟩
  · rw [hk]
    exact List.length_take_le 20 _
  · rw [hk]
    exact List.Pairwise.sublist (List.take_sublist _ _) (pairwise_sortByFreqDesc _)
  · intro f
    refine ⟨((sortByFreqDesc ((buildFreq (tokenize content)).map
        (mkRecord (tokenize content).length))).drop 20).filter
          (fun r => decide (r.frequency = f)), ?_⟩
    rw [hk, ← List.filter_append, List.take_append_drop, filter_sortByFreqDesc]

/-!
### C9 — the repetition signal
-/

/-- The repetition count in the words of claim C9: EVERY sentence of the
`[.!?]` split contributes its first 3 words (lower-cased, joined by a
space) as a fingerprint; distinct fingerprints recurring more than once
are counted.  The code, by contrast, only fingerprints sentences with
more than 3 words. -/
def claimRepetitionCount (content : String) : Nat :=
  let patterns := (splitRuns isSentencePunct content.data).map fun sentence =>
    lowerStr (List.intercalate ([' ']) ((splitRuns isWsChar (trimChars sentence)).take 3))
  ((buildFreq patterns).filter fun e => decide (1 < e.2)).length

/-- Two repeated 4-word sentences and two repeated 2-word sentences: the
claim's count is 2 (both fingerprints recur), the code's count is 1
(the 2-word sentences are skipped by the `words.length > 3` guard). -/
def shortSentenceInput : String := "x y z w. x y z w. a b. a b."

/-- C9 counterexample: the code excludes sentences of at most 3 words
from fingerprinting, so its signal differs from the claim's
all-sentences count. -/
theorem c9_short_sentence_cex :
    detectRepetitivePatterns shortSentenceInput = 1 ∧
    claimRepetitionCount shortSentenceInput = 2 := by
  with_unfolding_all decide

/-- C9 amended: the repetition signal equals the number of distinct
fingerprints occurring more than once among the fingerprints of the
sentences that have more than 3 words after trimming and
whitespace-splitting. -/
theorem c9_repetition_count (content : String) :
    detectRepetitivePatterns content
      = ((repetitionFingerprints content).dedup.filter
          (fun p => decide (1 < (repetitionFingerprints content).count p))).length := by
  unfold detectRepetitivePatterns
  exact buildFreq_recurring_length (repetitionFingerprints content)

end SEO
